import Mathlib

/-!
Verification of the extractor-selection and output-formatting logic of
`scripts/ingest_pdf.py`.

The PDF text-extraction backends (pypdf, pdfminer.six) are external
collaborators; they are modelled as data supplied to the functions:
for pypdf, a list of per-page outcomes (an outcome is `none` when
`page.extract_text()` raises, `some none` when it returns `None`, and
`some (some t)` when it returns the text `t`); for pdfminer.six, the
single text blob returned by `pdfminer.high_level.extract_text`, in
which pages are separated by form-feed characters.

Texts are modelled as lists of characters (`Str`), so that splitting,
stripping and concatenation are ordinary list operations.
-/

namespace IngestPdf

/-- A Python string, modelled as its list of characters. -/
abbrev Str := List Char

/-- The whitespace characters removed by Python's `str.strip()` /
`str.rstrip()` (the ASCII whitespace set: space, tab, newline,
carriage return, vertical tab, form feed). -/
def isPySpace (c : Char) : Bool :=
  c = ' ' || c = '\t' || c = '\n' || c = '\r' || c = '\x0b' || c = '\x0c'

/-- Characters of a Lean string literal, as a `Str`. -/
def strLit (s : String) : Str := s.data

/-- Python `s.rstrip()`: remove trailing whitespace. -/
def rstrip (p : Str) : Str := (p.reverse.dropWhile isPySpace).reverse

/-- Python `s.strip()`: remove leading and trailing whitespace. -/
def strip (p : Str) : Str := ((p.dropWhile isPySpace).reverse.dropWhile isPySpace).reverse

/-- Python `text.split(c)` for a single-character separator: the list of
chunks between occurrences of `c`.  `split` of the empty string is `[[]]`,
and a trailing separator yields a trailing empty chunk, as in Python. -/
def splitOnChar (c : Char) : Str → List Str
  | [] => [[]]
  | x :: xs =>
    let rest := splitOnChar c xs
    if x = c then [] :: rest
    else
      match rest with
      | [] => [[x]]
      | y :: ys => (x :: y) :: ys

/-- Python `sum(len(p) for p in pages)`. -/
def totalChars (pages : List Str) : Nat := (pages.map List.length).sum

/-- Embedding of `extract_with_pypdf` (src/scripts/ingest_pdf.py lines 46-58).
The backend's per-page outcomes stand in for `reader.pages`:
`none` means `page.extract_text()` raised an exception (caught, text
becomes `""`); `some r` means it returned `r`, to which the code applies
`or ""` (so `None` becomes `""`). -/
def extract_with_pypdf (pages : List (Option (Option Str))) : List Str :=
  pages.map fun outcome =>
    match outcome with
    | none => []
    | some r => r.getD []

/-- A page is "blank" when `p.strip()` is empty (the loop condition
`not pages[-1].strip()` in `extract_with_pdfminer`). -/
def blankPage (p : Str) : Bool := (strip p).isEmpty

/-- Embedding of the loop `while pages and not pages[-1].strip(): pages.pop()`:
repeatedly remove the last element while it is blank, i.e. drop the longest
blank suffix. -/
def popTrailingBlanks (pages : List Str) : List Str :=
  pages.rdropWhile blankPage

/-- Embedding of `extract_with_pdfminer` (src/scripts/ingest_pdf.py lines
61-72), as a function of the text blob the pdfminer backend returns:
split on form feed, `rstrip` each chunk, then pop trailing blank pages. -/
def extract_with_pdfminer (text : Str) : List Str :=
  popTrailingBlanks ((splitOnChar '\x0c' text).map rstrip)

/-- A document, as the extraction backends see it: its page count, the
pypdf per-page outcomes, and the pdfminer text blob. -/
structure PdfDoc where
  numPages : Nat
  pypdfPages : List (Option (Option Str))
  pdfminerText : Str

/-- Backend contract: pypdf reports one outcome per page, and the pdfminer
blob is the concatenation of one chunk per page, each chunk free of form
feeds and terminated by a form feed. -/
def PdfDoc.WF (d : PdfDoc) : Prop :=
  d.pypdfPages.length = d.numPages ∧
  ∃ pts : List Str, pts.length = d.numPages ∧
    (∀ p ∈ pts, ('\x0c' : Char) ∉ p) ∧
    d.pdfminerText = (pts.map (fun p => p ++ ['\x0c'])).flatten

/-- Embedding of `choose_extractor` (src/scripts/ingest_pdf.py lines 75-86):
try pypdf first; if its total character count is below 100, run pdfminer and
keep its result exactly when it is strictly larger. -/
def choose_extractor (d : PdfDoc) : List Str × String :=
  let pypdf_pages := extract_with_pypdf d.pypdfPages
  let total_chars := totalChars pypdf_pages
  if total_chars ≥ 100 then
    (pypdf_pages, "pypdf")
  else
    let pdfminer_pages := extract_with_pdfminer d.pdfminerText
    let miner_total := totalChars pdfminer_pages
    if miner_total > total_chars then
      (pdfminer_pages, "pdfminer.six")
    else
      (pypdf_pages, "pypdf")

/-- `choose_extractor` instrumented with a count of how many times the
fallback extractor (`extract_with_pdfminer`) is invoked: it is called
exactly once on the path where `total_chars < 100` and never otherwise. -/
def choose_extractor_instrumented (d : PdfDoc) : (List Str × String) × Nat :=
  let pypdf_pages := extract_with_pypdf d.pypdfPages
  let total_chars := totalChars pypdf_pages
  if total_chars ≥ 100 then
    ((pypdf_pages, "pypdf"), 0)
  else
    let pdfminer_pages := extract_with_pdfminer d.pdfminerText
    let miner_total := totalChars pdfminer_pages
    if miner_total > total_chars then
      ((pdfminer_pages, "pdfminer.six"), 1)
    else
      ((pypdf_pages, "pypdf"), 1)

/-- Decimal rendering of a page number, as it appears in the f-strings. -/
def natStr (n : Nat) : Str := (Nat.repr n).data

/-- One page's block in `<stem>.txt`:
`----- PAGE n START -----`, newline, the text, newline,
`----- PAGE n END -----` (from `write_outputs`). -/
def pageBlock (n : Nat) (t : Str) : Str :=
  strLit "----- PAGE " ++ natStr n ++ strLit " START -----" ++ ['\n'] ++ t ++
    ['\n'] ++ strLit "----- PAGE " ++ natStr n ++ strLit " END -----"

/-- The contents of `<stem>.txt`: the page blocks joined by blank lines
(`"\n\n".join(...)` over `enumerate(page_texts)` in `write_outputs`). -/
def full_text (page_texts : List Str) : Str :=
  List.intercalate (strLit "\n\n")
    (page_texts.enum.map fun it => pageBlock (it.1 + 1) it.2)

/-- One JSON object of `<stem>.pages.jsonl`. -/
structure PageRecord where
  file_name : String
  file_path : String
  page_number : Nat
  text : Str
deriving DecidableEq

/-- The records written to `<stem>.pages.jsonl`, in file order: one per
page, with 1-based `page_number` (from `write_outputs`). -/
def jsonl_records (fname fpath : String) (page_texts : List Str) : List PageRecord :=
  page_texts.enum.map fun it =>
    { file_name := fname, file_path := fpath, page_number := it.1 + 1, text := it.2 }

/-- The pure artifacts `write_outputs` (src/scripts/ingest_pdf.py lines
144-213) produces for the text and JSONL files, plus the manifest fields
derived from the chosen page texts. -/
structure WriteOutputsArtifacts where
  textFile : Str
  pagesJsonl : List PageRecord
  manifest_num_pages : Nat
  manifest_total_characters : Nat
  manifest_extractor : String

/-- Embedding of the formatting core of `write_outputs`. -/
def write_outputs (fname fpath : String) (page_texts : List Str)
    (extractor_name : String) : WriteOutputsArtifacts :=
  { textFile := full_text page_texts
    pagesJsonl := jsonl_records fname fpath page_texts
    manifest_num_pages := page_texts.length
    manifest_total_characters := page_texts.flatten.length
    manifest_extractor := extractor_name }

/-- The JSON status summary `main` prints on success. -/
structure StatusSummary where
  status : String
  num_pages : Nat
  total_characters : Nat
  extractor : String
deriving DecidableEq

/-- The externally observable outcome of one run of `main`. -/
structure MainResult where
  exitCode : Nat
  stderrMsg : Option String
  stdoutSummary : Option StatusSummary
  extractionAttempted : Bool

/-- Embedding of `main` (src/scripts/ingest_pdf.py lines 220-243):
`pathIsFile` is the value of `os.path.isfile(pdf_path)`.  When it is
false, `main` prints an error to stderr and calls `sys.exit(1)` before
any extraction; otherwise it runs the extractors, writes the outputs and
prints the JSON status summary, exiting normally (code 0). -/
def main (pathIsFile : Bool) (d : PdfDoc) : MainResult :=
  if !pathIsFile then
    { exitCode := 1
      stderrMsg := some "ERROR: PDF not found"
      stdoutSummary := none
      extractionAttempted := false }
  else
    let r := choose_extractor d
    { exitCode := 0
      stderrMsg := none
      stdoutSummary := some
        { status := "ok"
          num_pages := r.1.length
          total_characters := r.1.flatten.length
          extractor := r.2 }
      extractionAttempted := true }

/-- Modelled from the spec wording for the fallback page list ("splitting
on the backend's native page-boundary marker and trimming trailing
whitespace per page; also strip any trailing wholly-empty pages"):
the trailing whitespace-only pages are removed by structural recursion,
keeping a page exactly when a non-blank page follows it or it is itself
non-blank. -/
def stripTrailingBlankPages : List Str → List Str
  | [] => []
  | p :: ps =>
    match stripTrailingBlankPages ps with
    | [] => if blankPage p then [] else [p]
    | r => p :: r

/-- The fallback page list as the spec describes it. -/
def pdfminer_pages_spec (text : Str) : List Str :=
  stripTrailingBlankPages ((splitOnChar '\x0c' text).map rstrip)

/-- A one-page document whose primary extraction yields 100 characters. -/
def primaryDoc : PdfDoc :=
  { numPages := 1
    pypdfPages := [some (some (List.replicate 100 'a'))]
    pdfminerText := [] }

/-- A one-page document with empty primary text and a two-character
pdfminer blob. -/
def fallbackDoc : PdfDoc :=
  { numPages := 1
    pypdfPages := [some (some [])]
    pdfminerText := strLit "hi\x0c" }

/-- A one-page document whose primary yields two characters and whose
fallback yields only one. -/
def keepPrimaryDoc : PdfDoc :=
  { numPages := 1
    pypdfPages := [some (some (strLit "ab"))]
    pdfminerText := strLit "a\x0c" }

/-- A two-page document whose second page is blank: the pdfminer blob
holds one page of text, a form feed ending it, then the blank second
page's terminating form feed. -/
def pageCountCexDoc : PdfDoc :=
  { numPages := 2
    pypdfPages := [some (some []), some (some [])]
    pdfminerText := strLit "hello\x0c\x0c" }

/-- A one-page document on which the primary result is kept. -/
def pageCountWitnessDoc : PdfDoc :=
  { numPages := 1
    pypdfPages := [some (some (strLit "x"))]
    pdfminerText := strLit "a\x0c" }

/-- Three pypdf page outcomes: a good page, a page whose extraction
raises, and another good page. -/
def isolationPages : List (Option (Option Str)) :=
  [some (some (strLit "a")), none, some (some (strLit "bc"))]

/-- Two concrete page texts for the round-trip witness. -/
def rtPages : List Str := [strLit "alpha", strLit "beta"]

/-- A one-page document on which the fallback wins (primary raises,
pdfminer blob has text with trailing whitespace before its form feed). -/
def fallbackInvDoc : PdfDoc :=
  { numPages := 1
    pypdfPages := [none]
    pdfminerText := strLit "hi \x0c" }

/-! ### Helper lemmas -/

/-- Unfolding `rdropWhile` over a cons cell when everything after the
head is dropped: the head survives exactly when it fails the predicate. -/
theorem rdropWhile_cons_of_eq_nil {α : Type} (q : α → Bool) (p : α)
    (ps : List α) (hr : List.rdropWhile q ps = []) :
    List.rdropWhile q (p :: ps) = if q p then [] else [p] := by
  have hall : ∀ x ∈ ps, q x := List.rdropWhile_eq_nil_iff.mp hr
  have hnil : List.dropWhile q ps.reverse = [] :=
    List.dropWhile_eq_nil_iff.mpr fun x hx => hall x (List.mem_reverse.mp hx)
  rw [List.rdropWhile, List.reverse_cons, List.dropWhile_append, hnil]
  cases hq : q p <;> simp [List.dropWhile, hq]

/-- Unfolding `rdropWhile` over a cons cell when something after the
head survives: the head survives too. -/
theorem rdropWhile_cons_of_ne_nil {α : Type} (q : α → Bool) (p : α)
    (ps : List α) (hr : List.rdropWhile q ps ≠ []) :
    List.rdropWhile q (p :: ps) = p :: List.rdropWhile q ps := by
  have hne : List.dropWhile q ps.reverse ≠ [] := by
    intro h0
    rw [List.rdropWhile, h0] at hr
    exact hr rfl
  rw [List.rdropWhile, List.reverse_cons, List.dropWhile_append,
    if_neg (by simpa [List.isEmpty_iff] using hne), List.reverse_append,
    List.rdropWhile]
  rfl

/-- The while-pop loop and the spec's structural removal of trailing
blank pages agree on every page list. -/
theorem popTrailingBlanks_eq_stripTrailingBlankPages (l : List Str) :
    popTrailingBlanks l = stripTrailingBlankPages l := by
  induction l with
  | nil => rfl
  | cons p ps ih =>
    simp only [popTrailingBlanks] at ih ⊢
    rw [stripTrailingBlankPages]
    cases hr : stripTrailingBlankPages ps with
    | nil =>
      rw [rdropWhile_cons_of_eq_nil _ _ _ (by rw [ih, hr])]
    | cons a as =>
      rw [rdropWhile_cons_of_ne_nil _ _ _ (by rw [ih, hr]; exact List.cons_ne_nil a as),
        ih, hr]

/-- Python `rstrip` is idempotent. -/
theorem rstrip_idempotent (p : Str) : rstrip (rstrip p) = rstrip p := by
  simp only [rstrip, List.reverse_reverse]
  rw [List.dropWhile_idempotent]

/-- A page that is not wholly whitespace contains a non-whitespace
character. -/
theorem exists_nonspace_of_not_blank (p : Str) (h : blankPage p = false) :
    ∃ c ∈ p, isPySpace c = false := by
  by_contra hc
  push_neg at hc
  have hall : ∀ c ∈ p, isPySpace c = true := by
    intro c hcp
    cases hq : isPySpace c
    · exact absurd hq (hc c hcp)
    · rfl
  have hdropAll : List.dropWhile isPySpace p = [] := List.dropWhile_eq_nil_iff.mpr hall
  rw [blankPage, strip, hdropAll] at h
  simp [List.dropWhile] at h

/-- Splitting a chunk followed by a separator and a remainder peels off
the chunk, provided the chunk is separator-free. -/
theorem splitOnChar_append_sep (c : Char) (p rest : Str) (hp : c ∉ p) :
    splitOnChar c (p ++ c :: rest) = p :: splitOnChar c rest := by
  induction p with
  | nil => simp [splitOnChar]
  | cons x xs ih =>
    have hx : ¬(x = c) := fun hxc => hp (by rw [hxc]; exact List.mem_cons_self _ _)
    have hxs : c ∉ xs := fun hm => hp (List.mem_cons_of_mem _ hm)
    simp only [List.cons_append, splitOnChar, List.append_eq]
    rw [ih hxs, if_neg hx]

/-- Splitting the concatenation of form-feed-terminated chunks recovers
the chunks, plus one empty trailing chunk after the final form feed. -/
theorem splitOnChar_flatten (c : Char) (pts : List Str)
    (h : ∀ p ∈ pts, c ∉ p) :
    splitOnChar c ((pts.map (fun p => p ++ [c])).flatten) = pts ++ [[]] := by
  induction pts with
  | nil => simp [splitOnChar]
  | cons p ps ih =>
    simp only [List.map_cons, List.flatten_cons, List.append_assoc,
      List.singleton_append]
    rw [splitOnChar_append_sep c p _ (h p (List.mem_cons_self p ps)),
      ih fun q hq => h q (List.mem_cons_of_mem _ hq)]
    rfl

/-- Popping trailing blanks ignores one appended blank page. -/
theorem popTrailingBlanks_append_blank (l : List Str) (p : Str)
    (hp : blankPage p = true) :
    popTrailingBlanks (l ++ [p]) = popTrailingBlanks l :=
  List.rdropWhile_concat_pos _ _ _ hp

/-- Popping trailing blanks never lengthens the list. -/
theorem length_popTrailingBlanks_le (l : List Str) :
    (popTrailingBlanks l).length ≤ l.length :=
  (List.rdropWhile_prefix _ _).length_le

/-! ### Claim theorems -/

/-- C1: whenever the pypdf result carries at least 100 characters in
total, `choose_extractor` returns exactly the pypdf page list labelled
"pypdf", and the pdfminer fallback is invoked zero times. -/
theorem choose_extractor_accepts_primary (d : PdfDoc)
    (h : totalChars (extract_with_pypdf d.pypdfPages) ≥ 100) :
    choose_extractor d = (extract_with_pypdf d.pypdfPages, "pypdf") ∧
    (choose_extractor_instrumented d).2 = 0 := by
  constructor
  · simp only [choose_extractor]
    rw [if_pos h]
  · simp only [choose_extractor_instrumented]
    rw [if_pos h]

/-- Witness for C1 at a concrete 100-character document. -/
theorem choose_extractor_accepts_primary_witness :
    totalChars (extract_with_pypdf primaryDoc.pypdfPages) ≥ 100 ∧
    (choose_extractor primaryDoc = (extract_with_pypdf primaryDoc.pypdfPages, "pypdf") ∧
      (choose_extractor_instrumented primaryDoc).2 = 0) :=
  ⟨by decide, choose_extractor_accepts_primary primaryDoc (by decide)⟩

/-- C2: when the pypdf result is below the 100-character threshold and
the pdfminer result is strictly larger, `choose_extractor` returns the
pdfminer page list labelled "pdfminer.six". -/
theorem choose_extractor_prefers_better_fallback (d : PdfDoc)
    (h1 : totalChars (extract_with_pypdf d.pypdfPages) < 100)
    (h2 : totalChars (extract_with_pdfminer d.pdfminerText) >
      totalChars (extract_with_pypdf d.pypdfPages)) :
    choose_extractor d = (extract_with_pdfminer d.pdfminerText, "pdfminer.six") := by
  simp only [choose_extractor]
  rw [if_neg (by omega), if_pos h2]

/-- Witness for C2 at a concrete document where pdfminer wins. -/
theorem choose_extractor_prefers_better_fallback_witness :
    totalChars (extract_with_pypdf fallbackDoc.pypdfPages) < 100 ∧
    totalChars (extract_with_pdfminer fallbackDoc.pdfminerText) >
      totalChars (extract_with_pypdf fallbackDoc.pypdfPages) ∧
    choose_extractor fallbackDoc =
      (extract_with_pdfminer fallbackDoc.pdfminerText, "pdfminer.six") :=
  ⟨by decide, by decide,
    choose_extractor_prefers_better_fallback fallbackDoc (by decide) (by decide)⟩

/-- C3: when the pypdf result is below the threshold and the pdfminer
result is not strictly larger, `choose_extractor` keeps the pypdf page
list labelled "pypdf". -/
theorem choose_extractor_keeps_primary (d : PdfDoc)
    (h1 : totalChars (extract_with_pypdf d.pypdfPages) < 100)
    (h2 : totalChars (extract_with_pdfminer d.pdfminerText) ≤
      totalChars (extract_with_pypdf d.pypdfPages)) :
    choose_extractor d = (extract_with_pypdf d.pypdfPages, "pypdf") := by
  simp only [choose_extractor]
  rw [if_neg (by omega), if_neg (by omega)]

/-- Witness for C3 at a concrete document where pdfminer is no better. -/
theorem choose_extractor_keeps_primary_witness :
    totalChars (extract_with_pypdf keepPrimaryDoc.pypdfPages) < 100 ∧
    totalChars (extract_with_pdfminer keepPrimaryDoc.pdfminerText) ≤
      totalChars (extract_with_pypdf keepPrimaryDoc.pypdfPages) ∧
    choose_extractor keepPrimaryDoc =
      (extract_with_pypdf keepPrimaryDoc.pypdfPages, "pypdf") :=
  ⟨by decide, by decide,
    choose_extractor_keeps_primary keepPrimaryDoc (by decide) (by decide)⟩

/-- C4 counterexample: a well-formed two-page document (second page
blank) on which `choose_extractor` picks the fallback and returns only
one page, so the chosen page count differs from the source page count. -/
theorem choose_extractor_page_count_cex :
    pageCountCexDoc.WF ∧
    (choose_extractor pageCountCexDoc).1.length ≠ pageCountCexDoc.numPages := by
  constructor
  · exact ⟨by decide, [strLit "hello", []], by decide, by decide, by decide⟩
  · decide

/-- C4 (amended): for well-formed documents the page count of the chosen
sequence equals the source page count whenever the primary (pypdf)
result is chosen, but when the fallback (pdfminer.six) result is chosen
it is only at most the source page count, because trailing
whitespace-only pages are stripped from the fallback output. -/
theorem choose_extractor_page_count (d : PdfDoc) (h : d.WF) :
    ((choose_extractor d).2 = "pypdf" →
      (choose_extractor d).1.length = d.numPages) ∧
    ((choose_extractor d).2 = "pdfminer.six" →
      (choose_extractor d).1.length ≤ d.numPages) := by
  obtain ⟨hpy, pts, hlen, hff, hblob⟩ := h
  have hpypdf : (extract_with_pypdf d.pypdfPages).length = d.numPages := by
    rw [extract_with_pypdf, List.length_map, hpy]
  have hminer : (extract_with_pdfminer d.pdfminerText).length ≤ d.numPages := by
    rw [extract_with_pdfminer, hblob, splitOnChar_flatten _ _ hff,
      List.map_append, List.map_cons, List.map_nil]
    rw [show rstrip ([] : Str) = [] from rfl,
      popTrailingBlanks_append_blank _ _ (by decide)]
    calc (popTrailingBlanks (pts.map rstrip)).length
        ≤ (pts.map rstrip).length := length_popTrailingBlanks_le _
      _ = pts.length := List.length_map _ _
      _ = d.numPages := hlen
  simp only [choose_extractor]
  split_ifs with h1 h2
  · exact ⟨fun _ => hpypdf,
      fun hc => absurd hc (show ¬("pypdf" : String) = "pdfminer.six" by decide)⟩
  · exact ⟨fun hc => absurd hc (show ¬("pdfminer.six" : String) = "pypdf" by decide),
      fun _ => hminer⟩
  · exact ⟨fun _ => hpypdf,
      fun hc => absurd hc (show ¬("pypdf" : String) = "pdfminer.six" by decide)⟩

/-- Witness for the amended C4 at a concrete well-formed document on
which the primary is chosen and the page counts agree. -/
theorem choose_extractor_page_count_witness :
    pageCountWitnessDoc.WF ∧
    (choose_extractor pageCountWitnessDoc).1.length = pageCountWitnessDoc.numPages :=
  have hwf : pageCountWitnessDoc.WF :=
    ⟨by decide, [strLit "a"], by decide, by decide, by decide⟩
  ⟨hwf, (choose_extractor_page_count pageCountWitnessDoc hwf).1 (by decide)⟩

/-- C5: when one pypdf page outcome is an exception, `extract_with_pypdf`
still returns one entry per page, the faulting page's text is the empty
string, and every page whose extraction returned a text keeps exactly
that text; nothing propagates. -/
theorem extract_with_pypdf_page_isolation
    (pages : List (Option (Option Str))) (k : Nat)
    (hk : pages[k]? = some none) :
    (extract_with_pypdf pages).length = pages.length ∧
    (extract_with_pypdf pages)[k]? = some [] ∧
    ∀ (j : Nat) (t : Str), pages[j]? = some (some (some t)) →
      (extract_with_pypdf pages)[j]? = some t := by
  refine ⟨List.length_map _ _, ?_, ?_⟩
  · rw [extract_with_pypdf, List.getElem?_map, hk]
    rfl
  · intro j t hj
    rw [extract_with_pypdf, List.getElem?_map, hj]
    rfl

/-- Witness for C5: three pages, the middle one raising. -/
theorem extract_with_pypdf_page_isolation_witness :
    isolationPages[1]? = some none ∧
    (extract_with_pypdf isolationPages).length = isolationPages.length ∧
    (extract_with_pypdf isolationPages)[1]? = some [] ∧
    (extract_with_pypdf isolationPages)[2]? = some (strLit "bc") :=
  ⟨by decide,
    (extract_with_pypdf_page_isolation isolationPages 1 (by decide)).1,
    (extract_with_pypdf_page_isolation isolationPages 1 (by decide)).2.1,
    (extract_with_pypdf_page_isolation isolationPages 1 (by decide)).2.2 2
      (strLit "bc") (by decide)⟩

/-- C6: `extract_with_pdfminer` computes exactly the page list the spec
describes: split the blob on the form-feed page-boundary marker, trim
trailing whitespace from each chunk, and remove every trailing
whitespace-only page. -/
theorem extract_with_pdfminer_matches_spec (text : Str) :
    extract_with_pdfminer text = pdfminer_pages_spec text := by
  rw [extract_with_pdfminer, pdfminer_pages_spec,
    popTrailingBlanks_eq_stripTrailingBlankPages]

/-- C7: when the resolved input path is not an existing file, `main`
writes to stderr, exits non-zero, and attempts no extraction; when it
is, `main` exits zero with a JSON status summary on stdout. -/
theorem main_exit_behavior (d : PdfDoc) :
    ((main false d).exitCode ≠ 0 ∧ (main false d).stderrMsg.isSome = true ∧
      (main false d).extractionAttempted = false) ∧
    ((main true d).exitCode = 0 ∧ (main true d).stdoutSummary.isSome = true) := by
  refine ⟨⟨?_, rfl, rfl⟩, rfl, rfl⟩
  intro hc
  exact Nat.one_ne_zero hc

/-- C8: every JSONL record carries the 1-based page number and the exact
page text, and the text file is precisely those records' texts, in the
same order, each wrapped between its PAGE START/END markers and joined
by blank lines. -/
theorem write_outputs_round_trip (fname fpath extr : String) (pts : List Str) :
    (write_outputs fname fpath pts extr).textFile =
      List.intercalate (strLit "\n\n")
        (((write_outputs fname fpath pts extr).pagesJsonl).map
          (fun r => pageBlock r.page_number r.text)) ∧
    ∀ (i : Nat) (t : Str), pts[i]? = some t →
      ∃ r, ((write_outputs fname fpath pts extr).pagesJsonl)[i]? = some r ∧
        r.page_number = i + 1 ∧ r.text = t := by
  constructor
  · simp only [write_outputs, full_text, jsonl_records, List.map_map]
    rfl
  · intro i t ht
    refine ⟨{ file_name := fname, file_path := fpath,
              page_number := i + 1, text := t }, ?_, rfl, rfl⟩
    simp only [write_outputs, jsonl_records, List.getElem?_map,
      List.getElem?_enum, ht]
    rfl

/-- Witness for C8 on a concrete two-page text list. -/
theorem write_outputs_round_trip_witness :
    (write_outputs "f.pdf" "/abs/f.pdf" rtPages "pypdf").textFile =
      List.intercalate (strLit "\n\n")
        (((write_outputs "f.pdf" "/abs/f.pdf" rtPages "pypdf").pagesJsonl).map
          (fun r => pageBlock r.page_number r.text)) ∧
    ∃ r, ((write_outputs "f.pdf" "/abs/f.pdf" rtPages "pypdf").pagesJsonl)[1]? = some r ∧
      r.page_number = 2 ∧ r.text = strLit "beta" :=
  ⟨(write_outputs_round_trip "f.pdf" "/abs/f.pdf" "pypdf" rtPages).1,
    (write_outputs_round_trip "f.pdf" "/abs/f.pdf" "pypdf" rtPages).2 1
      (strLit "beta") (by decide)⟩

/-- C9: in every branch, the total character count of the chosen result
is at least that of the primary (pypdf) result. -/
theorem choose_extractor_never_worse (d : PdfDoc) :
    totalChars (extract_with_pypdf d.pypdfPages) ≤
      totalChars (choose_extractor d).1 := by
  simp only [choose_extractor]
  split_ifs with h1 h2
  · exact le_refl _
  · exact le_of_lt h2
  · exact le_refl _

/-- C10: whenever the fallback result is chosen, it is non-empty, every
page in it equals its own rstrip, and its last page contains a
non-whitespace character. -/
theorem choose_extractor_fallback_invariants (d : PdfDoc)
    (h : (choose_extractor d).2 = "pdfminer.six") :
    (choose_extractor d).1 ≠ [] ∧
    (∀ p ∈ (choose_extractor d).1, rstrip p = p) ∧
    ∃ q, (choose_extractor d).1.getLast? = some q ∧
      ∃ c ∈ q, isPySpace c = false := by
  have hres : choose_extractor d = (extract_with_pdfminer d.pdfminerText, "pdfminer.six") ∧
      totalChars (extract_with_pdfminer d.pdfminerText) >
        totalChars (extract_with_pypdf d.pypdfPages) := by
    revert h
    simp only [choose_extractor]
    split_ifs with h1 h2
    · intro hc
      exact absurd hc (show ¬("pypdf" : String) = "pdfminer.six" by decide)
    · exact fun _ => ⟨rfl, h2⟩
    · intro hc
      exact absurd hc (show ¬("pypdf" : String) = "pdfminer.six" by decide)
  obtain ⟨heq, hgt⟩ := hres
  rw [heq]
  have hne : extract_with_pdfminer d.pdfminerText ≠ [] := by
    intro h0
    rw [h0] at hgt
    exact absurd hgt (by simp [totalChars])
  refine ⟨hne, ?_, ?_⟩
  · intro p hp
    have hmem : p ∈ (splitOnChar '\x0c' d.pdfminerText).map rstrip :=
      (List.rdropWhile_prefix _ _).mem hp
    obtain ⟨y, _, hy⟩ := List.mem_map.mp hmem
    rw [← hy, rstrip_idempotent]
  · refine ⟨(extract_with_pdfminer d.pdfminerText).getLast hne,
      List.getLast?_eq_getLast _ hne, ?_⟩
    have hlast := List.rdropWhile_last_not blankPage
      ((splitOnChar '\x0c' d.pdfminerText).map rstrip) hne
    exact exists_nonspace_of_not_blank _ (by simpa using hlast)

/-- Witness for C10 at a concrete document on which the fallback wins. -/
theorem choose_extractor_fallback_invariants_witness :
    (choose_extractor fallbackInvDoc).2 = "pdfminer.six" ∧
    (choose_extractor fallbackInvDoc).1 ≠ [] :=
  ⟨by decide, (choose_extractor_fallback_invariants fallbackInvDoc (by decide)).1⟩

end IngestPdf
